import Mathlib

/-!
Verification of the TypeScript Kythe indexer core
(`kythe/typescript/indexer.ts`) via a shallow embedding in Lean 4.

The embedding models the data and control flow of the `Vistor` class and
the `index` entry point:

* `VName`, `TSNamespace`, `Entry` — the Kythe identity / graph-entry model.
* `scopedSignature` — the scope walk of `Vistor.scopedSignature`, modelled
  on the ancestor chain of a declaration (TypeScript nodes carry `parent`
  pointers; the chain from a declaration node to the root is represented
  as an explicit list, innermost node first).
* `getSymbolName` — the memoizing identity assignment of
  `Vistor.getSymbolName`, with the `symbolNames` map and the `anonId`
  counter threaded through an explicit `VState`.
* `visit` / `visitFunctionLikeDeclaration` / `indexFile` / `index` — the
  AST traversal and the entry point, with `console.log` emission modelled
  as an `emitted` list in the state and thrown exceptions modelled as an
  `Option String` error component that short-circuits the traversal
  (entries emitted before a throw remain emitted, as with `console.log`).

Transport encoding note: the real `emitFact` base64-encodes the fact
value at the sink boundary (`new Buffer(value).toString(base64)`).
That encoding is injective and is an external-interface concern (spec
section 6); `Entry.fact` stores the pre-encoding value string.
-/

/-- VName is the type of Kythe node identities (interface `VName`). -/
structure VName where
  signature : String
  path : String
  language : String
  root : String
  corpus : String
deriving DecidableEq, Repr

/-- TSNamespace represents the two namespaces of TypeScript: types and
values (enum `TSNamespace`). -/
inductive TSNamespace where
  | TYPE
  | VALUE
deriving DecidableEq, Repr

/-- A graph entry as emitted by `Vistor.emitFact` / `Vistor.emitEdge`:
either a fact (source, fact name, value) or an edge (source, kind,
target).  The fact value is stored before base64 transport encoding. -/
inductive Entry where
  | fact (source : VName) (factName : String) (factValue : String)
  | edge (source : VName) (edgeKind : String) (target : VName)
deriving DecidableEq, Repr

/-- The TypeScript `ts.SyntaxKind` values that `scopedSignature` and
`visit` dispatch on; every other kind is modelled by `Other`. -/
inductive TSKind where
  | Block
  | ClassDeclaration
  | FunctionDeclaration
  | InterfaceDeclaration
  | MethodDeclaration
  | Parameter
  | PropertyDeclaration
  | PropertySignature
  | VariableDeclaration
  | SourceFile
  | Other
deriving DecidableEq, Repr

/-- One node of the ancestor chain of a declaration, carrying exactly the
data `Vistor.scopedSignature` reads: its `ts.SyntaxKind`; for
declaration kinds, the declared name when `decl.name` exists and is a
simple `ts.Identifier` (`none` models both a missing name and a
non-identifier name such as a binding pattern, which the source treats
alike); for `SourceFile` nodes, the absolute path of the file. -/
structure ScopeNode where
  kind : TSKind
  nameIdent : Option String := none
  filePath : String := ""
deriving DecidableEq, Repr

/-- Is this `ts.SyntaxKind` one of the declaration kinds enumerated in
the `switch` of `Vistor.scopedSignature` (lines 170–177)? -/
def TSKind.isDeclKind : TSKind → Bool
  | .ClassDeclaration | .FunctionDeclaration | .InterfaceDeclaration
  | .MethodDeclaration | .Parameter | .PropertyDeclaration
  | .PropertySignature | .VariableDeclaration => true
  | _ => false

/-- The check `node.parent && (node.parent.kind === FunctionDeclaration
|| node.parent.kind === MethodDeclaration)` for a `Block` node, where
`rest` is the remainder of the ancestor chain (head = parent). -/
def isFunctionBody (rest : List ScopeNode) : Bool :=
  match rest with
  | p :: _ => p.kind = TSKind.FunctionDeclaration ∨ p.kind = TSKind.MethodDeclaration
  | [] => false

/-- Decimal rendering of a JavaScript number used in template literals
such as `` `block${this.anonId++}` `` and in `Number.prototype.toString`.
Fuel-based so that it is structurally recursive (the fuel `n + 1` always
suffices). -/
def jsStrCore : Nat → Nat → List Char → List Char
  | 0, _, acc => acc
  | fuel + 1, n, acc =>
    let acc' := Char.ofNat (48 + n % 10) :: acc
    if n < 10 then acc' else jsStrCore fuel (n / 10) acc'

/-- Decimal string of a natural number, modelling JavaScript
number-to-string conversion. -/
def jsStr (n : Nat) : String :=
  ⟨jsStrCore (n + 1) n []⟩

/-- A synthesized-token event recorded (as ghost data) by the scope
walk: either a `block<N>` or an `anon<N>` token, remembering the counter
value `N` it consumed. -/
inductive SynthTok where
  | block (n : Nat)
  | anon (n : Nat)
deriving DecidableEq, Repr

/-- The counter value a synthesized token consumed. -/
def SynthTok.n : SynthTok → Nat
  | .block n => n
  | .anon n => n

/-- The string pushed for a synthesized token. -/
def SynthTok.str : SynthTok → String
  | .block n => "block" ++ jsStr n
  | .anon n => "anon" ++ jsStr n

/-- Result of the scope-walk loop: the accumulated `parts` array, the
`sourceFile` variable, the final value of `this.anonId`, and (ghost
data, in push order) the synthesized tokens the walk produced. -/
structure ScopeLoopOut where
  parts : List String
  sf : Option String
  anonId : Nat
  synth : List SynthTok
deriving DecidableEq, Repr

/-- The `for` loop of `Vistor.scopedSignature` (lines 157–195): walk the
ancestor chain upward, pushing name fragments onto `parts`, recording
the containing source file, and incrementing `this.anonId` for each
synthesized `block<N>` / `anon<N>` token.  The `synth` component is
ghost instrumentation recording exactly the synthesized tokens. -/
def scopedSignatureLoop : List ScopeNode → Nat → List String → Option String → ScopeLoopOut
  | [], anonId, parts, sf => ⟨parts, sf, anonId, []⟩
  | node :: rest, anonId, parts, sf =>
    if node.kind = TSKind.Block then
      if isFunctionBody rest then
        scopedSignatureLoop rest anonId parts sf
      else
        let r := scopedSignatureLoop rest (anonId + 1) (parts ++ ["block" ++ jsStr anonId]) sf
        { r with synth := SynthTok.block anonId :: r.synth }
    else if node.kind.isDeclKind then
      match node.nameIdent with
      | some text => scopedSignatureLoop rest anonId (parts ++ [text]) sf
      | none =>
        let r := scopedSignatureLoop rest (anonId + 1) (parts ++ ["anon" ++ jsStr anonId]) sf
        { r with synth := SynthTok.anon anonId :: r.synth }
    else if node.kind = TSKind.SourceFile then
      scopedSignatureLoop rest anonId parts (some node.filePath)
    else
      scopedSignatureLoop rest anonId parts sf

/-- Result of `Vistor.scopedSignature`: the dotted signature and the
containing source file (plus the threaded counter and ghost tokens). -/
structure ScopeSig where
  sig : String
  sf : Option String
  anonId : Nat
  synth : List SynthTok
deriving DecidableEq, Repr

/-- `Vistor.scopedSignature` on the ancestor chain of a declaration
node (the chain starts at the declaration itself).  The names are
gathered bottom-to-top, so they are reversed before joining (line
198). -/
def scopedSignature (chain : List ScopeNode) (anonId : Nat) : ScopeSig :=
  let r := scopedSignatureLoop chain anonId [] none
  ⟨String.intercalate "." r.parts.reverse, r.sf, r.anonId, r.synth⟩

/-- A `ts.Symbol` as used by `Vistor.getSymbolName`: an opaque identity
(`id` models JavaScript object identity) together with its declaration
sites.  Each declaration site is represented by its ancestor chain
(innermost node — the declaration itself — first), which is all the
data `scopedSignature` reads from a declaration node. -/
structure TSSymbol where
  id : Nat
  declarations : List (List ScopeNode)
deriving DecidableEq, Repr

/-- The two-slot record stored in the `symbolNames` map: `(TYPE slot,
VALUE slot)`, matching the tuple `[VName | null, VName | null]` indexed
by `TSNamespace` (TYPE = 0, VALUE = 1). -/
abbrev SymSlots := Option VName × Option VName

/-- Read the slot of one namespace of a `symbolNames` entry (`vnames[ns]`). -/
def getSlot : SymSlots → TSNamespace → Option VName
  | (t, _), .TYPE => t
  | (_, v), .VALUE => v

/-- Write the slot of one namespace of a `symbolNames` entry
(`vnames[ns] = vname`). -/
def setSlot : SymSlots → TSNamespace → VName → SymSlots
  | (_, v), .TYPE, x => (some x, v)
  | (t, _), .VALUE, x => (t, some x)

/-- Lookup in the association-list model of the `symbolNames`
`Map<ts.Symbol, ...>` (`this.symbolNames.get(sym)`). -/
def mapGet (m : List (TSSymbol × SymSlots)) (k : TSSymbol) : Option SymSlots :=
  match m with
  | [] => none
  | (k', v) :: rest => if k' = k then some v else mapGet rest k

/-- Update in the association-list model of the `symbolNames` map
(`this.symbolNames.set(sym, vnames)`). -/
def mapSet (m : List (TSSymbol × SymSlots)) (k : TSSymbol) (v : SymSlots) :
    List (TSSymbol × SymSlots) :=
  match m with
  | [] => [(k, v)]
  | (k', v') :: rest => if k' = k then (k, v) :: rest else (k', v') :: mapSet rest k v

/-- A source-text span of a `ts.Node`: `pos` is `node.pos` (the full
start, including leading trivia such as whitespace and comments),
`start` is `node.getStart()` (the start skipping leading trivia), and
`stop` is `node.end = node.getEnd()` (end-exclusive). -/
structure Span where
  pos : Nat
  start : Nat
  stop : Nat
deriving DecidableEq, Repr

/-- Models the Node library function `path.relative(root, p)` for the cases the indexer
uses: per the spec, the emitted `path` "is always relative to a
configured root directory, never absolute". -/
def pathRelative (root p : String) : String :=
  if List.isPrefixOf (root ++ "/").data p.data then
    ⟨p.data.drop ((root ++ "/").data.length)⟩
  else p

/-- Models `ts.formatDiagnostics`: the exact layout used by the external library
is immaterial to the core, so diagnostics are modelled as pre-formatted
message strings joined by newlines. -/
def formatDiagnostics (diags : List String) : String :=
  String.intercalate "\n" diags

mutual
/-- A TypeScript AST node, restricted to the shapes the modelled claims
exercise: identifiers (carrying their `getSymbolAtLocation` resolution),
function-like declarations (carrying the list of `parameters[i].name`
nodes, which is the only parameter data `visitFunctionLikeDeclaration`
reads), blocks, and a generic `other` node that `visit` handles by
default child recursion (`ts.forEachChild`). -/
inductive TSNode where
  | ident (sp : Span) (text : String) (sym : Option TSSymbol)
  | funcDecl (sp : Span) (name : TSOpt) (params : TSList) (body : TSOpt)
  | block (sp : Span) (children : TSList)
  | other (sp : Span) (children : TSList)

/-- A list of AST nodes (mutual with `TSNode` so that the traversal can
be defined by structural mutual recursion). -/
inductive TSList where
  | nil
  | cons (head : TSNode) (tail : TSList)

/-- An optional AST node (mutual with `TSNode`). -/
inductive TSOpt where
  | none
  | some (node : TSNode)
end

/-- The span of an AST node. -/
def TSNode.span : TSNode → Span
  | .ident sp _ _ => sp
  | .funcDecl sp _ _ _ => sp
  | .block sp _ => sp
  | .other sp _ => sp

/-- Models `typeChecker.getSymbolAtLocation(node)`: identifiers carry
their resolved symbol; other nodes resolve to nothing. -/
def getSymbolAtLocation : TSNode → Option TSSymbol
  | .ident _ _ s => s
  | _ => Option.none

/-- The source file being indexed: its absolute path (`sourceFile.path`),
its text, and its top-level statements (the children visited by
`ts.forEachChild(file, ...)`). -/
structure SourceFileModel where
  path : String
  text : String
  statements : TSList

/-- The mutable state of one `Vistor` instance plus its emission stream:
`sourceRoot` (constructor argument), the current `sourceFile` and its
`kFile` VName (set by `indexFile`), the `symbolNames` map, the `anonId`
counter, and the list of entries emitted so far (`console.log` calls in
emission order). -/
structure VState where
  sourceRoot : String
  sourceFile : SourceFileModel
  kFile : VName
  symbolNames : List (TSSymbol × SymSlots)
  anonId : Nat
  emitted : List Entry

/-- `Vistor.newVName(signature, sourceFile)` with an explicit source
file path. -/
def newVNameAt (st : VState) (signature sfPath : String) : VName :=
  { signature := signature
    path := pathRelative st.sourceRoot sfPath
    language := "typescript"
    root := ""
    corpus := "TODO" }

/-- `Vistor.newVName(signature)` with the default `sourceFile`
argument. -/
def newVName (st : VState) (signature : String) : VName :=
  newVNameAt st signature st.sourceFile.path

/-- `Vistor.emitFact`: the fact name is namespaced under `/kythe/`; the
value is stored pre-transport-encoding (see the module docstring). -/
def emitFact (st : VState) (source : VName) (name value : String) : VState :=
  { st with emitted := st.emitted ++ [Entry.fact source ("/kythe/" ++ name) value] }

/-- `Vistor.emitNode`: a node declaration is a `node/kind` fact. -/
def emitNode (st : VState) (source : VName) (kind : String) : VState :=
  emitFact st source "node/kind" kind

/-- `Vistor.emitEdge`: the edge kind is namespaced under
`/kythe/edge/`. -/
def emitEdge (st : VState) (source : VName) (name : String) (target : VName) : VState :=
  { st with emitted := st.emitted ++ [Entry.edge source ("/kythe/edge/" ++ name) target] }

/-- `Vistor.newAnchor(node)`: the signature of the anchor VName is
`@<node.pos>:<node.end>`; the emitted `loc/start` fact holds
`node.getStart()` (leading trivia skipped) and `loc/end` holds
`node.getEnd() = node.end`; a `childof` edge links the anchor to the
enclosing file. -/
def newAnchor (st : VState) (sp : Span) : VName × VState :=
  let name := newVName st ("@" ++ jsStr sp.pos ++ ":" ++ jsStr sp.stop)
  let st1 := emitNode st name "anchor"
  let st2 := emitFact st1 name "loc/start" (jsStr sp.start)
  let st3 := emitFact st2 name "loc/end" (jsStr sp.stop)
  let st4 := emitEdge st3 name "childof" st.kFile
  (name, st4)

/-- The message of the `throw new Error(...)` in `Vistor.getSymbolName`
for a symbol without declarations. -/
def noDeclsMsg : String := "TODO: symbol has no declarations?"

/-- The modelled TypeError raised when JavaScript dereferences
`undefined` (e.g. `scopedSignature` found no containing source file, or
`getSymbolAtLocation` returned `undefined` where the code does not
check). -/
def undefinedErr : String := "TypeError: undefined dereference"

/-- `Vistor.getSymbolName(sym, ns)`: return the memoized VName when the
slot of the requested namespace is filled; otherwise fail on a symbol with no
declarations, compute the signature from the first declaration site
(mutating `anonId` via `scopedSignature`), append `#type` for the TYPE
namespace, build the VName against the source file of the declaration, store
it in the appropriate slot, and return it.  The error component models a
thrown exception. -/
def getSymbolName (st : VState) (sym : TSSymbol) (ns : TSNamespace) :
    VState × Except String VName :=
  match (mapGet st.symbolNames sym).bind (fun vnames => getSlot vnames ns) with
  | Option.some v => (st, .ok v)
  | Option.none =>
    match sym.declarations with
    | [] => (st, .error noDeclsMsg)
    | decl :: _ =>
      let r := scopedSignature decl st.anonId
      let sig := if ns = TSNamespace.TYPE then r.sig ++ "#type" else r.sig
      let st1 := { st with anonId := r.anonId }
      match r.sf with
      | Option.none => (st1, .error undefinedErr)
      | Option.some sfPath =>
        let vname := newVNameAt st1 sig sfPath
        let vnames := (mapGet st1.symbolNames sym).getD (Option.none, Option.none)
        ({ st1 with symbolNames := mapSet st1.symbolNames sym (setSlot vnames ns vname) },
         .ok vname)

/-- The `for (const [index, param] of toArray(decl.parameters.entries()))`
loop of `Vistor.visitFunctionLikeDeclaration` (lines 317–324): for each
parameter name, resolve its symbol, assign its VALUE-namespace VName,
emit a `variable` node, a `param.<index>` edge from the function, and a
`defines/binding` edge from the anchor of the parameter name.  A thrown
exception stops the loop (second component `some msg`). -/
def visitParamsLoop (st : VState) (kFunc : VName) (index : Nat) :
    TSList → VState × Option String
  | .nil => (st, none)
  | .cons pname rest =>
    match getSymbolAtLocation pname with
    | Option.none => (st, some undefinedErr)
    | Option.some sym =>
      match getSymbolName st sym TSNamespace.VALUE with
      | (st1, .error e) => (st1, some e)
      | (st1, .ok kParam) =>
        let st2 := emitNode st1 kParam "variable"
        let st3 := emitEdge st2 kFunc ("param." ++ jsStr index) kParam
        let r := newAnchor st3 pname.span
        let st4 := emitEdge r.2 r.1 "defines/binding" kParam
        visitParamsLoop st4 kFunc (index + 1) rest

mutual
/-- `Vistor.visit` (lines 343–383), restricted to the node shapes of the
model: function-like declarations dispatch to
`visitFunctionLikeDeclaration`; a bare identifier in value position
resolves its symbol, silently skips unresolved or undeclared symbols,
and otherwise emits a `ref` edge from a fresh anchor to the
VALUE-namespace VName; all other modelled kinds (blocks, generic nodes)
take the default branch, recursing into every child via
`ts.forEachChild`. -/
def visit (st : VState) : TSNode → VState × Option String
  | .ident sp _text symOpt =>
    match symOpt with
    | Option.none => (st, none)
    | Option.some sym =>
      if sym.declarations = [] then (st, none)
      else
        match getSymbolName st sym TSNamespace.VALUE with
        | (st1, .error e) => (st1, some e)
        | (st1, .ok name) =>
          let r := newAnchor st1 sp
          (emitEdge r.2 r.1 "ref" name, none)
  | .funcDecl _sp name params body => visitFunctionLikeDeclaration st name params body
  | .block _sp children => visitList st children
  | .other _sp children => visitList st children

/-- Child-by-child traversal used for `ts.forEachChild(node, n =>
this.visit(n))`: a thrown exception unwinds (stops the iteration). -/
def visitList (st : VState) : TSList → VState × Option String
  | .nil => (st, none)
  | .cons n rest =>
    match visit st n with
    | (st1, some e) => (st1, some e)
    | (st1, none) => visitList st1 rest

/-- `Vistor.visitFunctionLikeDeclaration` (lines 304–327): a named
declaration resolves the symbol of its name, assigns the VALUE-namespace
VName, emits a `function` node and a `defines/binding` edge from the
anchor of its name; an unnamed declaration uses `this.newVName(TODO)` as a
placeholder.  Then the parameter loop runs, and finally the body (when
present) is visited. -/
def visitFunctionLikeDeclaration (st : VState) (name : TSOpt) (params : TSList)
    (body : TSOpt) : VState × Option String :=
  let kFuncR : VState × Except String VName :=
    match name with
    | .none => (st, .ok (newVName st "TODO"))
    | .some nameNode =>
      match getSymbolAtLocation nameNode with
      | Option.none => (st, .error undefinedErr)
      | Option.some sym =>
        match getSymbolName st sym TSNamespace.VALUE with
        | (st1, .error e) => (st1, .error e)
        | (st1, .ok kFunc) =>
          let st2 := emitNode st1 kFunc "function"
          let r := newAnchor st2 nameNode.span
          (emitEdge r.2 r.1 "defines/binding" kFunc, .ok kFunc)
  match kFuncR with
  | (stA, .error e) => (stA, some e)
  | (stA, .ok kFunc) =>
    match visitParamsLoop stA kFunc 0 params with
    | (stB, some e) => (stB, some e)
    | (stB, none) =>
      match body with
      | .none => (stB, none)
      | .some b => visit stB b
end

/-- `Vistor.indexFile` (lines 386–393): set the current source file,
build its VName with an empty signature and an empty language tag, emit
the `node/kind` and `text` facts of the file, then visit every child of the
file node. -/
def indexFile (st0 : VState) (file : SourceFileModel) : VState × Option String :=
  let st1 := { st0 with sourceFile := file }
  let kFile := { newVName st1 "" with language := "" }
  let st2 := { st1 with kFile := kFile }
  let st3 := emitFact st2 kFile "node/kind" "file"
  let st4 := emitFact st3 kFile "text" file.text
  visitList st4 file.statements

/-- A fresh `Vistor` instance (`new Vistor(typeChecker, sourceRoot)`):
empty `symbolNames` map, `anonId = 0`, nothing emitted; `sourceFile` and
`kFile` are unset until `indexFile` runs (placeholders model the
TypeScript definite-assignment fields). -/
def initState (sourceRoot : String) : VState :=
  { sourceRoot := sourceRoot
    sourceFile := ⟨"", "", .nil⟩
    kFile := ⟨"", "", "", "", ""⟩
    symbolNames := []
    anonId := 0
    emitted := [] }

/-- The input contract of `index`: an already-parsed, already-checked
program exposing its pre-flight diagnostics (modelled as pre-formatted
message strings) and its source files keyed by path. -/
structure Program where
  diags : List String
  files : List (String × SourceFileModel)

/-- `program.getSourceFile(path)`. -/
def Program.getSourceFile (p : Program) (path : String) : Option SourceFileModel :=
  (p.files.find? (fun f => f.1 = path)).map (fun f => f.2)

/-- The per-path loop of `index` (lines 425–432): for each requested
path, create a fresh `Vistor` and index the file; all visitors share the
same sink, so emitted entries accumulate across files.  A missing source
file or a thrown exception aborts the run with the entries emitted so
far. -/
def indexLoop (prog : Program) (cwd : String) :
    List String → List Entry → List Entry × Option String
  | [], acc => (acc, none)
  | p :: rest, acc =>
    match prog.getSourceFile p with
    | Option.none => (acc, some undefinedErr)
    | Option.some sf =>
      let r := indexFile (initState cwd) sf
      match r.2 with
      | some e => (acc ++ r.1.emitted, some e)
      | none => indexLoop prog cwd rest (acc ++ r.1.emitted)

/-- The entry point `index(paths, program, emit)` (lines 407–433): when
the program carries any pre-flight diagnostic, throw an error carrying
the formatted diagnostic text before anything is emitted; otherwise
index each requested file with a fresh visitor.  The result pairs the
entries delivered to the sink with the thrown error, if any. -/
def index (paths : List String) (program : Program) (cwd : String) :
    List Entry × Option String :=
  if program.diags.length > 0 then
    ([], some (formatDiagnostics program.diags))
  else
    indexLoop program cwd paths []

/-- The numeric value of a list of decimal digit characters (used to
prove `jsStr` injective by a round trip). -/
def digitsVal (l : List Char) : Nat :=
  l.foldl (fun a c => 10 * a + (c.toNat - 48)) 0

/-- Result of the claim-side scope walk (see `claimFragments`). -/
structure ClaimWalk where
  frags : List String
  counter : Nat
  file : Option String
deriving DecidableEq, Repr

/-- Claim-side formulation of the scope walk, written from the wording
of the specification (section 4.2): walk the ancestor chain collecting
name fragments innermost-first; each named declaration ancestor
contributes its declared name, or a fresh `anon<N>` token from a
monotonically increasing counter when it has no simple identifier name;
a block that is not the immediate body of a function/method contributes
a fresh `block<N>` token from the same counter, while a function/method
body block contributes nothing; the file boundary records the containing
source file; every other ancestor kind is skipped. -/
def claimFragments : List ScopeNode → Nat → ClaimWalk
  | [], c => ⟨[], c, none⟩
  | n :: rest, c =>
    if n.kind = TSKind.Block then
      if isFunctionBody rest then claimFragments rest c
      else
        let w := claimFragments rest (c + 1)
        ⟨("block" ++ jsStr c) :: w.frags, w.counter, w.file⟩
    else if n.kind.isDeclKind then
      match n.nameIdent with
      | some t =>
        let w := claimFragments rest c
        ⟨t :: w.frags, w.counter, w.file⟩
      | none =>
        let w := claimFragments rest (c + 1)
        ⟨("anon" ++ jsStr c) :: w.frags, w.counter, w.file⟩
    else if n.kind = TSKind.SourceFile then
      let w := claimFragments rest c
      ⟨w.frags, w.counter, w.file.or (some n.filePath)⟩
    else claimFragments rest c

/-- All synthesized tokens produced during one file-indexing pass,
modelled as a sequence of `scopedSignature` invocations threading the
`Vistor.anonId` counter exactly as `getSymbolName` does. -/
def passSynth : List (List ScopeNode) → Nat → List SynthTok
  | [], _ => []
  | chain :: rest, c =>
    let r := scopedSignature chain c
    r.synth ++ passSynth rest r.anonId

/-- Is this entry a `param.<index>` edge? -/
def isParamEdge : Entry → Bool
  | .edge _ kind _ => List.isPrefixOf "/kythe/edge/param.".data kind.data
  | .fact _ _ _ => false

/-- The source VName of an entry. -/
def Entry.source : Entry → VName
  | .fact s _ _ => s
  | .edge s _ _ => s

/-- Scenario input (spec section 8, simple function): absolute path of
the indexed file. -/
def c8Path : String := "/ws/src/main.ts"

/-- Scenario input: the symbol of the top-level function `f`, declared
by a `FunctionDeclaration` directly inside the source file. -/
def c8SymF : TSSymbol :=
  ⟨1, [[⟨TSKind.FunctionDeclaration, some "f", ""⟩,
        ⟨TSKind.SourceFile, none, c8Path⟩]]⟩

/-- Scenario input: the symbol of the parameter `x`, declared by a
`Parameter` node inside the declaration of `f`. -/
def c8SymX : TSSymbol :=
  ⟨2, [[⟨TSKind.Parameter, some "x", ""⟩,
        ⟨TSKind.FunctionDeclaration, some "f", ""⟩,
        ⟨TSKind.SourceFile, none, c8Path⟩]]⟩

/-- Scenario input: a source file containing a top-level function `f`
with one parameter `x` of a primitive type and a reference to `x` in
the body (the return statement is a generic `other` node; the primitive
type annotation contributes no visited node, matching the source, which
never traverses parameter type annotations). -/
def c8File : SourceFileModel :=
  ⟨c8Path, "function f with parameter x returning x",
   .cons
     (.funcDecl ⟨0, 0, 35⟩
       (.some (.ident ⟨8, 9, 10⟩ "f" (some c8SymF)))
       (.cons (.ident ⟨11, 11, 12⟩ "x" (some c8SymX)) .nil)
       (.some (.block ⟨22, 23, 35⟩
         (.cons (.other ⟨23, 24, 33⟩
           (.cons (.ident ⟨30, 31, 32⟩ "x" (some c8SymX)) .nil)) .nil))))
     .nil⟩

-- Decidable equality of exception results, for concrete evaluation.
deriving instance DecidableEq for Except

/-- Counterexample input for the namespace-suffix property: a class
declared inside a free-standing block (its scope chain consumes the
anonymous counter). -/
def c1Sym : TSSymbol :=
  ⟨1, [[⟨TSKind.ClassDeclaration, some "C", ""⟩,
        ⟨TSKind.Block, Option.none, ""⟩,
        ⟨TSKind.SourceFile, Option.none, "/r/a.ts"⟩]]⟩

/-- Witness input: a top-level function symbol whose scope chain
consumes no anonymous counter. -/
def cwSym : TSSymbol :=
  ⟨3, [[⟨TSKind.FunctionDeclaration, some "f", ""⟩,
        ⟨TSKind.SourceFile, Option.none, "/r/a.ts"⟩]]⟩

/-- Witness input: the parameter-name list of a concrete anonymous
function declaration. -/
def c10Ps : TSList :=
  .cons (.ident ⟨0, 0, 1⟩ "a"
    (some ⟨11, [[⟨TSKind.Parameter, some "a", ""⟩,
                 ⟨TSKind.SourceFile, Option.none, "/r/b.ts"⟩]]⟩)) .nil


/-! ### Helper lemmas -/

/-- The accumulator of `jsStrCore` is a plain suffix. -/
theorem jsStrCore_append (fuel : Nat) : ∀ (n : Nat) (acc : List Char),
    jsStrCore fuel n acc = jsStrCore fuel n [] ++ acc := by
  induction fuel with
  | zero => intro n acc; simp [jsStrCore]
  | succ fuel ih =>
    intro n acc
    simp only [jsStrCore]
    by_cases h : n < 10
    · simp [h]
    · simp only [if_neg h]
      rw [ih (n / 10) (Char.ofNat (48 + n % 10) :: acc),
          ih (n / 10) [Char.ofNat (48 + n % 10)]]
      simp

/-- Decimal digit characters evaluate back to their digit. -/
theorem digitChar_toNat (d : Nat) (h : d < 10) : (Char.ofNat (48 + d)).toNat = 48 + d := by
  interval_cases d <;> decide

/-- Round trip: the digits produced by `jsStrCore` evaluate back to the
number, given sufficient fuel. -/
theorem digitsVal_jsStrCore (fuel : Nat) : ∀ n : Nat, n < fuel →
    digitsVal (jsStrCore fuel n []) = n := by
  induction fuel with
  | zero => intro n h; omega
  | succ fuel ih =>
    intro n h
    simp only [jsStrCore]
    by_cases h10 : n < 10
    · simp only [if_pos h10, digitsVal, List.foldl]
      rw [digitChar_toNat (n % 10) (Nat.mod_lt _ (by omega))]
      omega
    · simp only [if_neg h10]
      rw [jsStrCore_append]
      have hlt : n / 10 < fuel := by omega
      have := ih (n / 10) hlt
      simp only [digitsVal] at *
      rw [List.foldl_append, this]
      simp only [List.foldl]
      rw [digitChar_toNat (n % 10) (Nat.mod_lt _ (by omega))]
      omega

/-- The JavaScript decimal rendering is injective. -/
theorem jsStr_injective : Function.Injective jsStr := by
  intro m n h
  have hd : jsStrCore (m + 1) m [] = jsStrCore (n + 1) n [] := congrArg String.data h
  have hm := digitsVal_jsStrCore (m + 1) m (by omega)
  have hn := digitsVal_jsStrCore (n + 1) n (by omega)
  rw [hd] at hm
  omega

/-- Distinct counter values yield distinct synthesized token strings. -/
theorem SynthTok.str_ne {a b : SynthTok} (h : a.n ≠ b.n) : a.str ≠ b.str := by
  intro he
  cases a <;> cases b <;> simp only [SynthTok.str, SynthTok.n] at he h
  · exact h (jsStr_injective (by
      have := congrArg String.data he
      simp only [String.data_append] at this
      exact String.ext (List.append_cancel_left this)))
  · have := congrArg String.data he
    simp only [String.data_append] at this
    simp at this
  · have := congrArg String.data he
    simp only [String.data_append] at this
    simp at this
  · exact h (jsStr_injective (by
      have := congrArg String.data he
      simp only [String.data_append] at this
      exact String.ext (List.append_cancel_left this)))

/-- Looking up the key just set returns the value just set. -/
theorem mapGet_mapSet_self (m : List (TSSymbol × SymSlots)) (k : TSSymbol) (v : SymSlots) :
    mapGet (mapSet m k v) k = some v := by
  induction m with
  | nil => simp [mapGet, mapSet]
  | cons hd tl ih =>
    by_cases h : hd.1 = k
    · simp [mapGet, mapSet, h]
    · simp [mapGet, mapSet, h, ih]

/-- Reading the slot just written returns the value just written. -/
theorem getSlot_setSlot_self (p : SymSlots) (ns : TSNamespace) (v : VName) :
    getSlot (setSlot p ns v) ns = some v := by
  cases p; cases ns <;> rfl

/-- Writing the slot of one namespace preserves the other slot. -/
theorem getSlot_setSlot_other (p : SymSlots) (ns ns' : TSNamespace) (v : VName)
    (h : ns ≠ ns') : getSlot (setSlot p ns v) ns' = getSlot p ns' := by
  cases p; cases ns <;> cases ns' <;> first | rfl | exact absurd rfl h

/-- The source scope-walk loop refines the claim-side walk: the final
`parts` array is the initial one extended with the claim-side fragments
(innermost-first), the recorded source file is the claim-side one (or
the initial value when the chain has no file node), and the final
counter is the claim-side counter. -/
theorem scopedSignatureLoop_eq_claim (chain : List ScopeNode) :
    ∀ (c : Nat) (parts : List String) (sf : Option String),
    (scopedSignatureLoop chain c parts sf).parts = parts ++ (claimFragments chain c).frags ∧
    (scopedSignatureLoop chain c parts sf).sf = (claimFragments chain c).file.or sf ∧
    (scopedSignatureLoop chain c parts sf).anonId = (claimFragments chain c).counter := by
  induction chain with
  | nil => intro c parts sf; simp [scopedSignatureLoop, claimFragments]
  | cons node rest ih =>
    intro c parts sf
    by_cases hb : node.kind = TSKind.Block
    · by_cases hf : isFunctionBody rest
      · simp [scopedSignatureLoop, claimFragments, hb, hf, ih]
      · simp only [scopedSignatureLoop, claimFragments, hb, hf, if_true, if_false,
          Bool.false_eq_true, ite_true, ite_false]
        obtain ⟨h1, h2, h3⟩ := ih (c + 1) (parts ++ ["block" ++ jsStr c]) sf
        refine ⟨?_, ?_, ?_⟩ <;> simp_all
    · by_cases hd : node.kind.isDeclKind
      · cases hn : node.nameIdent with
        | some t =>
          simp only [scopedSignatureLoop, claimFragments, hb, hd, hn]
          obtain ⟨h1, h2, h3⟩ := ih c (parts ++ [t]) sf
          refine ⟨?_, ?_, ?_⟩ <;> simp_all
        | none =>
          simp only [scopedSignatureLoop, claimFragments, hb, hd, hn]
          obtain ⟨h1, h2, h3⟩ := ih (c + 1) (parts ++ ["anon" ++ jsStr c]) sf
          refine ⟨?_, ?_, ?_⟩ <;> simp_all
      · by_cases hs : node.kind = TSKind.SourceFile
        · simp +decide only [scopedSignatureLoop, claimFragments, hb, hd, hs, if_true, if_false]
          obtain ⟨h1, h2, h3⟩ := ih c parts (some node.filePath)
          refine ⟨h1, ?_, h3⟩
          rw [h2]
          cases (claimFragments rest c).file <;> rfl
        · simp [scopedSignatureLoop, claimFragments, hb, hd, hs, ih]

/-- The counters consumed by the synthesized tokens of one scope walk
are exactly the consecutive values from the starting counter, and the
final counter is the starting counter plus the number of tokens. -/
theorem scopedSignatureLoop_synth (chain : List ScopeNode) :
    ∀ (c : Nat) (parts : List String) (sf : Option String),
    (scopedSignatureLoop chain c parts sf).synth.map SynthTok.n =
      List.range' c (scopedSignatureLoop chain c parts sf).synth.length ∧
    (scopedSignatureLoop chain c parts sf).anonId =
      c + (scopedSignatureLoop chain c parts sf).synth.length := by
  induction chain with
  | nil => intro c parts sf; simp [scopedSignatureLoop]
  | cons node rest ih =>
    intro c parts sf
    by_cases hb : node.kind = TSKind.Block
    · by_cases hf : isFunctionBody rest
      · simp only [scopedSignatureLoop, hb, hf, if_true]
        exact ih c parts sf
      · simp only [scopedSignatureLoop, hb, hf, if_true, Bool.false_eq_true, if_false]
        obtain ⟨h1, h2⟩ := ih (c + 1) (parts ++ ["block" ++ jsStr c]) sf
        constructor
        · simp only [List.map_cons, SynthTok.n, List.length_cons, List.range'_succ, h1]
        · simp only [List.length_cons, h2]; omega
    · by_cases hd : node.kind.isDeclKind
      · cases hn : node.nameIdent with
        | some t =>
          simp only [scopedSignatureLoop, hb, hd, hn, if_true, Bool.false_eq_true, if_false]
          exact ih c (parts ++ [t]) sf
        | none =>
          simp only [scopedSignatureLoop, hb, hd, hn, if_true, Bool.false_eq_true, if_false]
          obtain ⟨h1, h2⟩ := ih (c + 1) (parts ++ ["anon" ++ jsStr c]) sf
          constructor
          · simp only [List.map_cons, SynthTok.n, List.length_cons, List.range'_succ, h1]
          · simp only [List.length_cons, h2]; omega
      · by_cases hs : node.kind = TSKind.SourceFile
        · simp only [scopedSignatureLoop, hb, hd, hs, if_true, Bool.false_eq_true, if_false]
          exact ih c parts (some node.filePath)
        · simp only [scopedSignatureLoop, hb, hd, hs, if_true, Bool.false_eq_true, if_false]
          exact ih c parts sf

/-- Counter bounds for the synthesized tokens of one scope walk. -/
theorem scopedSignature_synth_bounds (chain : List ScopeNode) (c : Nat) :
    (∀ t ∈ (scopedSignature chain c).synth, c ≤ t.n ∧ t.n < (scopedSignature chain c).anonId) ∧
    List.Pairwise (fun a b => SynthTok.n a < SynthTok.n b) (scopedSignature chain c).synth ∧
    c ≤ (scopedSignature chain c).anonId := by
  obtain ⟨h1, h2⟩ := scopedSignatureLoop_synth chain c [] none
  simp only [scopedSignature]
  refine ⟨?_, ?_, by omega⟩
  · intro t ht
    have : t.n ∈ (scopedSignatureLoop chain c [] none).synth.map SynthTok.n :=
      List.mem_map_of_mem _ ht
    rw [h1, List.mem_range'_1] at this
    omega
  · have := List.pairwise_lt_range' c (scopedSignatureLoop chain c [] none).synth.length
    rw [← h1, List.pairwise_map] at this
    exact this

/-- Across a whole pass, synthesized-token counters are strictly
increasing in production order and bounded below by the starting
counter. -/
theorem passSynth_pairwise (chains : List (List ScopeNode)) :
    ∀ c : Nat,
    List.Pairwise (fun a b => SynthTok.n a < SynthTok.n b) (passSynth chains c) ∧
    ∀ t ∈ passSynth chains c, c ≤ t.n := by
  induction chains with
  | nil => intro c; simp [passSynth]
  | cons chain rest ih =>
    intro c
    obtain ⟨hb, hp, hc⟩ := scopedSignature_synth_bounds chain c
    obtain ⟨ihp, ihb⟩ := ih (scopedSignature chain c).anonId
    simp only [passSynth]
    constructor
    · rw [List.pairwise_append]
      refine ⟨hp, ihp, ?_⟩
      intro a ha b hb'
      have h1 := (hb a ha).2
      have h2 := ihb b hb'
      omega
    · intro t ht
      rcases List.mem_append.mp ht with h | h
      · exact (hb t h).1
      · have := ihb t h
        omega

/-- `getSymbolName` never emits entries, and it leaves the current
source file, source root and file VName unchanged. -/
theorem getSymbolName_frame (st : VState) (sym : TSSymbol) (ns : TSNamespace) :
    (getSymbolName st sym ns).1.emitted = st.emitted ∧
    (getSymbolName st sym ns).1.sourceFile = st.sourceFile ∧
    (getSymbolName st sym ns).1.sourceRoot = st.sourceRoot ∧
    (getSymbolName st sym ns).1.kFile = st.kFile := by
  unfold getSymbolName
  split
  · exact ⟨rfl, rfl, rfl, rfl⟩
  · split
    · exact ⟨rfl, rfl, rfl, rfl⟩
    · dsimp only
      split <;> exact ⟨rfl, rfl, rfl, rfl⟩

/-- C2: for every symbol with at least one declaration site and every
namespace, a successful `getSymbolName` call is memoized: repeating the
call on the resulting state returns the identical VName and performs no
further mutation of the visitor state (in particular, none of the
Symbol-to-VName table). -/
theorem c2_getSymbolName_memoized (st st' : VState) (sym : TSSymbol)
    (ns : TSNamespace) (v : VName)
    (h : getSymbolName st sym ns = (st', .ok v)) :
    getSymbolName st' sym ns = (st', .ok v) := by
  unfold getSymbolName at h
  cases hc : (mapGet st.symbolNames sym).bind (fun vnames => getSlot vnames ns) with
  | some v0 =>
    rw [hc] at h
    simp only [Prod.mk.injEq, Except.ok.injEq] at h
    obtain ⟨rfl, rfl⟩ := h
    unfold getSymbolName
    rw [hc]
  | none =>
    rw [hc] at h
    cases hd : sym.declarations with
    | nil => rw [hd] at h; simp at h
    | cons d tl =>
      rw [hd] at h
      dsimp only at h
      cases hsf : (scopedSignature d st.anonId).sf with
      | none => rw [hsf] at h; simp at h
      | some sfPath =>
        rw [hsf] at h
        have hst : st' = { st with
            anonId := (scopedSignature d st.anonId).anonId
            symbolNames := mapSet st.symbolNames sym
              (setSlot ((mapGet st.symbolNames sym).getD (Option.none, Option.none)) ns
                (newVNameAt { st with anonId := (scopedSignature d st.anonId).anonId }
                  (if ns = TSNamespace.TYPE then (scopedSignature d st.anonId).sig ++ "#type"
                   else (scopedSignature d st.anonId).sig) sfPath)) } := by
          have := congrArg Prod.fst h
          simp at this
          exact this.symm
        have hv : v = newVNameAt { st with anonId := (scopedSignature d st.anonId).anonId }
            (if ns = TSNamespace.TYPE then (scopedSignature d st.anonId).sig ++ "#type"
             else (scopedSignature d st.anonId).sig) sfPath := by
          have := congrArg Prod.snd h
          simp at this
          exact this.symm
        unfold getSymbolName
        have hlook : (mapGet st'.symbolNames sym).bind (fun vnames => getSlot vnames ns) =
            some v := by
          rw [hst, mapGet_mapSet_self, ← hv]
          exact getSlot_setSlot_self _ _ _
        rw [hlook]

/-- The recorded source file of the claim-side walk does not depend on
the counter. -/
theorem claimFragments_file_indep (chain : List ScopeNode) :
    ∀ c c' : Nat, (claimFragments chain c).file = (claimFragments chain c').file := by
  induction chain with
  | nil => intro c c'; rfl
  | cons node rest ih =>
    intro c c'
    by_cases hb : node.kind = TSKind.Block
    · by_cases hf : isFunctionBody rest
      · simp only [claimFragments, hb, hf, if_true]; exact ih c c'
      · simp only [claimFragments, hb, hf, if_true, Bool.false_eq_true, if_false]
        exact ih (c + 1) (c' + 1)
    · by_cases hd : node.kind.isDeclKind
      · cases hn : node.nameIdent with
        | some t =>
          simp only [claimFragments, hb, hd, hn, if_true, Bool.false_eq_true, if_false]
          exact ih c c'
        | none =>
          simp only [claimFragments, hb, hd, hn, if_true, Bool.false_eq_true, if_false]
          exact ih (c + 1) (c' + 1)
      · by_cases hs : node.kind = TSKind.SourceFile
        · simp +decide only [claimFragments, hs, if_true, if_false]
          rw [ih c c']
        · simp only [claimFragments, hb, hd, hs, if_true, Bool.false_eq_true, if_false]
          exact ih c c'

/-- The recorded source file of the scope walk does not depend on the
starting counter. -/
theorem scopedSignature_sf_indep (chain : List ScopeNode) (c c' : Nat) :
    (scopedSignature chain c).sf = (scopedSignature chain c').sf := by
  obtain ⟨-, h2, -⟩ := scopedSignatureLoop_eq_claim chain c [] Option.none
  obtain ⟨-, h2', -⟩ := scopedSignatureLoop_eq_claim chain c' [] Option.none
  simp only [scopedSignature]
  rw [h2, h2', claimFragments_file_indep chain c c']

/-- Explicit form of a `getSymbolName` cache miss that finds a source
file: the resulting state and VName. -/
theorem getSymbolName_miss_eq (st : VState) (sym : TSSymbol) (ns : TSNamespace)
    (d : List ScopeNode) (tl : List (List ScopeNode)) (sfPath : String)
    (hc : (mapGet st.symbolNames sym).bind (fun vnames => getSlot vnames ns) = Option.none)
    (hd : sym.declarations = d :: tl)
    (hsf : (scopedSignature d st.anonId).sf = some sfPath) :
    getSymbolName st sym ns =
      ({ st with
          anonId := (scopedSignature d st.anonId).anonId
          symbolNames := mapSet st.symbolNames sym
            (setSlot ((mapGet st.symbolNames sym).getD (Option.none, Option.none)) ns
              (newVNameAt { st with anonId := (scopedSignature d st.anonId).anonId }
                (if ns = TSNamespace.TYPE then (scopedSignature d st.anonId).sig ++ "#type"
                 else (scopedSignature d st.anonId).sig) sfPath)) },
       .ok (newVNameAt { st with anonId := (scopedSignature d st.anonId).anonId }
              (if ns = TSNamespace.TYPE then (scopedSignature d st.anonId).sig ++ "#type"
               else (scopedSignature d st.anonId).sig) sfPath)) := by
  unfold getSymbolName
  rw [hc, hd]
  dsimp only
  rw [hsf]

/-- The final counter of a scope walk is the starting counter plus the
number of synthesized tokens. -/
theorem scopedSignature_anonId (chain : List ScopeNode) (c : Nat) :
    (scopedSignature chain c).anonId = c + (scopedSignature chain c).synth.length := by
  obtain ⟨-, h2⟩ := scopedSignatureLoop_synth chain c [] Option.none
  simpa [scopedSignature] using h2

/-- C1 (amended): for a symbol (not yet in the table) declared both as
a type and as a value, the TYPE and VALUE VNames agree on path,
language, root and corpus; and whenever the scope chain of the declaration
synthesizes no anonymous token, the TYPE signature is exactly the VALUE
signature with the fixed suffix appended. -/
theorem c1_namespace_suffix (st : VState) (sym : TSSymbol) (d : List ScopeNode)
    (tl : List (List ScopeNode)) (sfPath : String)
    (hm : mapGet st.symbolNames sym = Option.none)
    (hd : sym.declarations = d :: tl)
    (hsf : (scopedSignature d st.anonId).sf = some sfPath) :
    ∃ (v t : VName) (st1 st2 : VState),
      getSymbolName st sym TSNamespace.VALUE = (st1, .ok v) ∧
      getSymbolName st1 sym TSNamespace.TYPE = (st2, .ok t) ∧
      t.path = v.path ∧ t.language = v.language ∧ t.root = v.root ∧ t.corpus = v.corpus ∧
      ((scopedSignature d st.anonId).synth = [] →
        t.signature = v.signature ++ "#type") := by
  have hc1 : (mapGet st.symbolNames sym).bind (fun vnames => getSlot vnames TSNamespace.VALUE) =
      Option.none := by rw [hm]; rfl
  have h1 := getSymbolName_miss_eq st sym TSNamespace.VALUE d tl sfPath hc1 hd hsf
  rw [if_neg (by decide : ¬(TSNamespace.VALUE = TSNamespace.TYPE))] at h1
  set a1 := (scopedSignature d st.anonId).anonId with ha1
  set v := newVNameAt { st with anonId := a1 } (scopedSignature d st.anonId).sig sfPath with hv
  set st1 : VState := { st with
      anonId := a1
      symbolNames := mapSet st.symbolNames sym
        (setSlot ((mapGet st.symbolNames sym).getD (Option.none, Option.none))
          TSNamespace.VALUE v) } with hst1
  have hc2 : (mapGet st1.symbolNames sym).bind (fun vnames => getSlot vnames TSNamespace.TYPE) =
      Option.none := by
    rw [hst1]
    simp only [mapGet_mapSet_self]
    rw [show ((some (setSlot ((mapGet st.symbolNames sym).getD (Option.none, Option.none))
        TSNamespace.VALUE v)).bind (fun vnames => getSlot vnames TSNamespace.TYPE)) =
        getSlot (setSlot ((mapGet st.symbolNames sym).getD (Option.none, Option.none))
          TSNamespace.VALUE v) TSNamespace.TYPE from rfl]
    rw [getSlot_setSlot_other _ _ _ _ (by decide), hm]
    rfl
  have hanon1 : st1.anonId = a1 := rfl
  have hsf2 : (scopedSignature d st1.anonId).sf = some sfPath := by
    rw [hanon1, scopedSignature_sf_indep d a1 st.anonId]
    exact hsf
  have h2 := getSymbolName_miss_eq st1 sym TSNamespace.TYPE d tl sfPath hc2 hd hsf2
  rw [if_pos rfl] at h2
  refine ⟨v, _, st1, _, h1, h2, rfl, rfl, rfl, rfl, ?_⟩
  intro hna
  have heq : a1 = st.anonId := by
    rw [ha1, scopedSignature_anonId, hna]
    rfl
  simp only [newVNameAt, hanon1, heq]
  rfl

/-- C5: `scopedSignature` refines the claim-side walk: it collects the
fragments innermost-first as described (named declarations contribute
their names or fresh `anon<N>` tokens, free-standing blocks contribute
fresh `block<N>` tokens, function/method body blocks contribute
nothing), returns their reversal joined with a dot, and records the
containing source file found at the file boundary. -/
theorem c5_scopedSignature_claim (chain : List ScopeNode) (c : Nat) :
    (scopedSignature chain c).sig =
      String.intercalate "." (claimFragments chain c).frags.reverse ∧
    (scopedSignature chain c).sf = (claimFragments chain c).file ∧
    (scopedSignature chain c).anonId = (claimFragments chain c).counter := by
  obtain ⟨h1, h2, h3⟩ := scopedSignatureLoop_eq_claim chain c [] Option.none
  refine ⟨?_, ?_, h3⟩
  · simp only [scopedSignature]
    rw [h1]
    simp
  · simp only [scopedSignature]
    rw [h2]
    cases (claimFragments chain c).file <;> rfl

/-- C7: a symbol with an absent-or-empty declarations list makes
`getSymbolName` throw (it returns no VName); a symbol with at least one
declaration never triggers that error; and only the first declaration
site determines the returned VName (two uncached symbols sharing a first
declaration receive the same result). -/
theorem c7_decl_policy (st : VState) (sym : TSSymbol) (ns : TSNamespace) :
    ((mapGet st.symbolNames sym).bind (fun vnames => getSlot vnames ns) = Option.none →
      sym.declarations = [] →
      getSymbolName st sym ns = (st, .error noDeclsMsg)) ∧
    (sym.declarations ≠ [] →
      (getSymbolName st sym ns).2 ≠ .error noDeclsMsg) ∧
    (∀ (sym' : TSSymbol) (d : List ScopeNode) (tl tl' : List (List ScopeNode)),
      (mapGet st.symbolNames sym).bind (fun vnames => getSlot vnames ns) = Option.none →
      (mapGet st.symbolNames sym').bind (fun vnames => getSlot vnames ns) = Option.none →
      sym.declarations = d :: tl → sym'.declarations = d :: tl' →
      (getSymbolName st sym ns).2 = (getSymbolName st sym' ns).2) := by
  refine ⟨?_, ?_, ?_⟩
  · intro hc hd
    unfold getSymbolName
    rw [hc, hd]
  · intro hne
    cases hcache : (mapGet st.symbolNames sym).bind (fun vnames => getSlot vnames ns) with
    | some v0 =>
      unfold getSymbolName
      rw [hcache]
      simp
    | none =>
      cases hdecl : sym.declarations with
      | nil => exact absurd hdecl hne
      | cons d tl =>
        unfold getSymbolName
        rw [hcache, hdecl]
        dsimp only
        cases hsf : (scopedSignature d st.anonId).sf with
        | none =>
          dsimp only
          simp only [ne_eq, Except.error.injEq]
          decide
        | some sfPath =>
          dsimp only
          simp
  · intro sym' d tl tl' hc hc' hd hd'
    unfold getSymbolName
    rw [hc, hc', hd, hd']
    dsimp only
    cases hsf : (scopedSignature d st.anonId).sf with
    | none => rfl
    | some sfPath => rfl

/-- C9: within one file-indexing pass (a sequence of scope walks
threading the `anonId` counter), every synthesized `block<N>` / `anon<N>`
token is produced from a single strictly increasing counter, so all
synthesized tokens of the pass are pairwise distinct. -/
theorem c9_synth_tokens_distinct (chains : List (List ScopeNode)) (c : Nat) :
    List.Pairwise (· < ·) ((passSynth chains c).map SynthTok.n) ∧
    List.Pairwise (fun a b => SynthTok.str a ≠ SynthTok.str b) (passSynth chains c) := by
  obtain ⟨hp, -⟩ := passSynth_pairwise chains c
  constructor
  · rw [List.pairwise_map]
    exact hp
  · exact hp.imp (fun h => SynthTok.str_ne (Nat.ne_of_lt h))

/-- C3: for every input program whose pre-flight diagnostics list is
non-empty, `index` fails with a hard error carrying the formatted
diagnostic text, before any entry reaches the sink. -/
theorem c3_fatal_on_diagnostics (paths : List String) (program : Program) (cwd : String)
    (h : program.diags ≠ []) :
    index paths program cwd = ([], some (formatDiagnostics program.diags)) := by
  unfold index
  rw [if_pos]
  exact List.length_pos.mpr h

/-- Witness for C3 at a concrete program with one diagnostic. -/
theorem c3_witness :
    index ["a.ts"] ⟨["a.ts(1,1): error TS1005: something"], []⟩ "/r" =
      ([], some (formatDiagnostics ["a.ts(1,1): error TS1005: something"])) :=
  c3_fatal_on_diagnostics ["a.ts"] ⟨["a.ts(1,1): error TS1005: something"], []⟩ "/r"
    (by decide)

/-- C4 (amended): `newAnchor` returns a VName whose signature is
`@<pos>:<end>` built from the full start of the node (`node.pos`, which
includes leading trivia) and its end-exclusive offset, and emits exactly
four entries: a `node/kind` fact with value `anchor`, a `loc/start` fact
holding `node.getStart()` (the trivia-skipped start, which matches the
first offset of the signature only when the node has no leading trivia), a
`loc/end` fact holding the end-exclusive offset matching the signature,
and a `childof` edge to the VName of the enclosing file. -/
theorem c4_newAnchor_amended (st : VState) (sp : Span) :
    newAnchor st sp =
      (newVName st ("@" ++ jsStr sp.pos ++ ":" ++ jsStr sp.stop),
       { st with emitted := st.emitted ++
          [Entry.fact (newVName st ("@" ++ jsStr sp.pos ++ ":" ++ jsStr sp.stop))
             "/kythe/node/kind" "anchor",
           Entry.fact (newVName st ("@" ++ jsStr sp.pos ++ ":" ++ jsStr sp.stop))
             "/kythe/loc/start" (jsStr sp.start),
           Entry.fact (newVName st ("@" ++ jsStr sp.pos ++ ":" ++ jsStr sp.stop))
             "/kythe/loc/end" (jsStr sp.stop),
           Entry.edge (newVName st ("@" ++ jsStr sp.pos ++ ":" ++ jsStr sp.stop))
             "/kythe/edge/childof" st.kFile] }) := by
  simp [newAnchor, emitNode, emitFact, emitEdge]

/-- Counterexample for C4, as stated: a node with leading trivia
(`pos = 0`, `getStart() = 2`, `end = 5`) produces an anchor whose
signature is `@0:5` while its `loc/start` fact holds `2`; the signature
offsets do not match the `loc/start` fact, and the signature is not
built from the trivia-skipped start. -/
theorem c4_counterexample :
    (newAnchor (initState "/r") ⟨0, 2, 5⟩).1.signature = "@0:5" ∧
    Entry.fact (newAnchor (initState "/r") ⟨0, 2, 5⟩).1 "/kythe/loc/start" "2" ∈
      (newAnchor (initState "/r") ⟨0, 2, 5⟩).2.emitted ∧
    (newAnchor (initState "/r") ⟨0, 2, 5⟩).1.signature ≠ "@2:5" := by
  decide

/-- C6 (amended): when a symbol with zero declaration sites reaches
`getSymbolName` during the indexing of one file, the error propagates
out of `indexFile` (the indexing of the file is aborted and no statement
after the failing one contributes entries), but the entries already
emitted for that file — here the `node/kind` and `text` facts of the file —
remain emitted; emission is not all-or-nothing. -/
theorem c6_abort_keeps_prior_entries (root sfPath text nm : String) (sp nsp : Span)
    (sid : Nat) (rest : TSList) :
    indexFile (initState root)
      ⟨sfPath, text,
       .cons (.funcDecl sp (.some (.ident nsp nm (some ⟨sid, []⟩))) .nil .none) rest⟩ =
      ({ initState root with
          sourceFile := ⟨sfPath, text,
            .cons (.funcDecl sp (.some (.ident nsp nm (some ⟨sid, []⟩))) .nil .none) rest⟩
          kFile := ⟨"", pathRelative root sfPath, "", "", "TODO"⟩
          emitted := [Entry.fact ⟨"", pathRelative root sfPath, "", "", "TODO"⟩
                        "/kythe/node/kind" "file",
                      Entry.fact ⟨"", pathRelative root sfPath, "", "", "TODO"⟩
                        "/kythe/text" text] },
       some noDeclsMsg) := by
  rfl

/-- Counterexample for C6, as stated: at a concrete file whose first
first statement has a name symbol without declarations, indexing aborts with the
no-declarations error, yet the emitted entry list for that file is not
empty (the file facts were already emitted), refuting all-or-nothing
emission. -/
theorem c6_counterexample :
    (indexFile (initState "/r")
        ⟨"/r/a.ts", "function g()",
         .cons (.funcDecl ⟨0, 0, 12⟩ (.some (.ident ⟨9, 9, 10⟩ "g" (some ⟨7, []⟩))) .nil .none)
           .nil⟩).2 = some noDeclsMsg ∧
    (indexFile (initState "/r")
        ⟨"/r/a.ts", "function g()",
         .cons (.funcDecl ⟨0, 0, 12⟩ (.some (.ident ⟨9, 9, 10⟩ "g" (some ⟨7, []⟩))) .nil .none)
           .nil⟩).1.emitted ≠ [] := by
  decide

set_option maxHeartbeats 4000000 in
/-- C8: indexing the simple-function scenario file emits (at least) a
`function` node for `f`, a `variable` node for `x`, a `defines/binding`
edge from the name anchor of `f` to `f`, a `param.0` edge from `f` to `x`, a
`defines/binding` edge from the declaration anchor of `x` to `x`, and a
`ref` edge from the body-reference anchor to `x` — all under the
VALUE-namespace VNames `f` and `f.x`, with no error. -/
theorem c8_simple_function_scenario :
    (indexFile (initState "/ws") c8File).2 = none ∧
    Entry.fact ⟨"f", "src/main.ts", "typescript", "", "TODO"⟩ "/kythe/node/kind" "function" ∈
      (indexFile (initState "/ws") c8File).1.emitted ∧
    Entry.fact ⟨"f.x", "src/main.ts", "typescript", "", "TODO"⟩ "/kythe/node/kind" "variable" ∈
      (indexFile (initState "/ws") c8File).1.emitted ∧
    Entry.edge ⟨"@8:10", "src/main.ts", "typescript", "", "TODO"⟩
        "/kythe/edge/defines/binding" ⟨"f", "src/main.ts", "typescript", "", "TODO"⟩ ∈
      (indexFile (initState "/ws") c8File).1.emitted ∧
    Entry.edge ⟨"f", "src/main.ts", "typescript", "", "TODO"⟩
        "/kythe/edge/param.0" ⟨"f.x", "src/main.ts", "typescript", "", "TODO"⟩ ∈
      (indexFile (initState "/ws") c8File).1.emitted ∧
    Entry.edge ⟨"@11:12", "src/main.ts", "typescript", "", "TODO"⟩
        "/kythe/edge/defines/binding" ⟨"f.x", "src/main.ts", "typescript", "", "TODO"⟩ ∈
      (indexFile (initState "/ws") c8File).1.emitted ∧
    Entry.edge ⟨"@30:32", "src/main.ts", "typescript", "", "TODO"⟩
        "/kythe/edge/ref" ⟨"f.x", "src/main.ts", "typescript", "", "TODO"⟩ ∈
      (indexFile (initState "/ws") c8File).1.emitted := by
  decide

/-- Every `param.<index>` edge emitted by the parameter loop has the
VName of the function as its source (entries already present before the loop
aside). -/
theorem visitParamsLoop_sources (kFunc : VName) :
    ∀ (ps : TSList) (st : VState) (i : Nat) (e : Entry),
      e ∈ (visitParamsLoop st kFunc i ps).1.emitted →
      isParamEdge e = true → e.source = kFunc ∨ e ∈ st.emitted
  | .nil => by
    intro st i e he _
    exact Or.inr he
  | .cons p rest => by
    intro st i e he hp
    rw [show visitParamsLoop st kFunc i (.cons p rest) =
        (match getSymbolAtLocation p with
         | Option.none => (st, some undefinedErr)
         | Option.some sym =>
           match getSymbolName st sym TSNamespace.VALUE with
           | (st1, .error err) => (st1, some err)
           | (st1, .ok kParam) =>
             let st2 := emitNode st1 kParam "variable"
             let st3 := emitEdge st2 kFunc ("param." ++ jsStr i) kParam
             let r := newAnchor st3 p.span
             let st4 := emitEdge r.2 r.1 "defines/binding" kParam
             visitParamsLoop st4 kFunc (i + 1) rest) from rfl] at he
    cases hs : getSymbolAtLocation p with
    | none => rw [hs] at he; exact Or.inr he
    | some sym =>
      rw [hs] at he
      dsimp only at he
      cases hg : getSymbolName st sym TSNamespace.VALUE with
      | mk st1 res =>
        have hem : st1.emitted = st.emitted := by
          have := (getSymbolName_frame st sym TSNamespace.VALUE).1
          rw [hg] at this; exact this
        cases res with
        | error err =>
          rw [hg] at he
          rw [hem] at he
          exact Or.inr he
        | ok kParam =>
          rw [hg] at he
          dsimp only at he
          have := visitParamsLoop_sources kFunc rest _ (i + 1) e he hp
          rcases this with h | h
          · exact Or.inl h
          · simp only [emitEdge, newAnchor, emitNode, emitFact, hem,
              List.append_assoc, List.mem_append, List.mem_cons, List.mem_singleton,
              List.cons_append, List.nil_append] at h
            rcases h with h | h | h | h | h | h | h | h | h
            · exact Or.inr h
            · subst h; simp [isParamEdge] at hp
            · subst h; exact Or.inl rfl
            · subst h; simp [isParamEdge] at hp
            · subst h; simp [isParamEdge] at hp
            · subst h; simp [isParamEdge] at hp
            · subst h; simp [isParamEdge] at hp
            · subst h; simp [isParamEdge] at hp
            · exact absurd h (List.not_mem_nil e)

/-- C10: for an anonymous function-like declaration, the VName used for
the function — the source of its `param.<index>` edges — is the fixed
placeholder `newVName st "TODO"` (signature `TODO`, path of the current
file); two distinct anonymous declarations in the same state therefore
share the identical placeholder VName. -/
theorem c10_anonymous_placeholder (st : VState) (ps1 ps2 : TSList) :
    newVName st "TODO" =
      ⟨"TODO", pathRelative st.sourceRoot st.sourceFile.path, "typescript", "", "TODO"⟩ ∧
    (∀ e ∈ (visitFunctionLikeDeclaration st .none ps1 .none).1.emitted,
      isParamEdge e = true → e.source = newVName st "TODO" ∨ e ∈ st.emitted) ∧
    (∀ e ∈ (visitFunctionLikeDeclaration st .none ps2 .none).1.emitted,
      isParamEdge e = true → e.source = newVName st "TODO" ∨ e ∈ st.emitted) := by
  have key : ∀ ps : TSList, ∀ e ∈ (visitFunctionLikeDeclaration st .none ps .none).1.emitted,
      isParamEdge e = true → e.source = newVName st "TODO" ∨ e ∈ st.emitted := by
    intro ps e he hp
    have hk : visitFunctionLikeDeclaration st .none ps .none =
        (match visitParamsLoop st (newVName st "TODO") 0 ps with
         | (s, some err) => (s, some err)
         | (s, none) => (s, none)) := rfl
    have heq : (visitFunctionLikeDeclaration st .none ps .none).1.emitted =
        (visitParamsLoop st (newVName st "TODO") 0 ps).1.emitted := by
      rw [hk]
      cases h : visitParamsLoop st (newVName st "TODO") 0 ps with
      | mk stB errOpt => cases errOpt <;> rfl
    rw [heq] at he
    exact visitParamsLoop_sources (newVName st "TODO") ps st 0 e he hp
  exact ⟨rfl, key ps1, key ps2⟩

/-- Counterexample for C1, as stated: a class `C` declared inside a
free-standing block, looked up first in the VALUE namespace and then in
the TYPE namespace, yields a TYPE signature `block1.C#type` that is not
the VALUE signature `block0.C` with `#type` appended — the counter
advanced between the two `scopedSignature` runs. -/
theorem c1_counterexample :
    (getSymbolName (initState "/r") c1Sym TSNamespace.VALUE).2 =
      .ok ⟨"block0.C", "a.ts", "typescript", "", "TODO"⟩ ∧
    (getSymbolName (getSymbolName (initState "/r") c1Sym TSNamespace.VALUE).1 c1Sym
        TSNamespace.TYPE).2 =
      .ok ⟨"block1.C#type", "a.ts", "typescript", "", "TODO"⟩ ∧
    ("block1.C#type" : String) ≠ "block0.C" ++ "#type" := by
  decide

/-- Witness for C1 (amended) at a concrete symbol whose chain has no
anonymous scopes. -/
theorem c1_witness :
    ∃ (v t : VName) (st1 st2 : VState),
      getSymbolName (initState "/r") cwSym TSNamespace.VALUE = (st1, .ok v) ∧
      getSymbolName st1 cwSym TSNamespace.TYPE = (st2, .ok t) ∧
      t.path = v.path ∧ t.language = v.language ∧ t.root = v.root ∧ t.corpus = v.corpus ∧
      ((scopedSignature [⟨TSKind.FunctionDeclaration, some "f", ""⟩,
          ⟨TSKind.SourceFile, Option.none, "/r/a.ts"⟩] (initState "/r").anonId).synth = [] →
        t.signature = v.signature ++ "#type") :=
  c1_namespace_suffix (initState "/r") cwSym
    [⟨TSKind.FunctionDeclaration, some "f", ""⟩,
     ⟨TSKind.SourceFile, Option.none, "/r/a.ts"⟩] [] "/r/a.ts" rfl rfl (by decide)

/-- Witness for C2 at a concrete symbol: the second lookup returns the
same VName and leaves the state of the first lookup untouched. -/
theorem c2_witness :
    getSymbolName (getSymbolName (initState "/r") cwSym TSNamespace.VALUE).1 cwSym
        TSNamespace.VALUE =
      ((getSymbolName (initState "/r") cwSym TSNamespace.VALUE).1,
       .ok ⟨"f", "a.ts", "typescript", "", "TODO"⟩) :=
  c2_getSymbolName_memoized (initState "/r") _ cwSym TSNamespace.VALUE _
    (Prod.ext rfl (by decide))

/-- Witness for C7 at a concrete declaration-free symbol: the error is
raised. -/
theorem c7_witness :
    getSymbolName (initState "/r") ⟨9, []⟩ TSNamespace.VALUE =
      (initState "/r", .error noDeclsMsg) :=
  (c7_decl_policy (initState "/r") ⟨9, []⟩ TSNamespace.VALUE).1 rfl rfl

/-- Witness for C10 at a concrete anonymous declaration with one
parameter: the source of its `param.0` edge is the fixed placeholder. -/
theorem c10_witness :
    (Entry.edge ⟨"TODO", "", "typescript", "", "TODO"⟩ "/kythe/edge/param.0"
        ⟨"a", "b.ts", "typescript", "", "TODO"⟩).source =
      newVName (initState "/r") "TODO" ∨
    (Entry.edge ⟨"TODO", "", "typescript", "", "TODO"⟩ "/kythe/edge/param.0"
        ⟨"a", "b.ts", "typescript", "", "TODO"⟩) ∈ (initState "/r").emitted :=
  (c10_anonymous_placeholder (initState "/r") c10Ps c10Ps).2.1
    (Entry.edge ⟨"TODO", "", "typescript", "", "TODO"⟩ "/kythe/edge/param.0"
        ⟨"a", "b.ts", "typescript", "", "TODO"⟩) (by decide) (by decide)
